import Mathlib

/-!
Verification of the quick-scraper Blinkit pipeline.

This file gives a shallow embedding, in Lean 4, of the pure core of the
scraper: quantity parsing and tolerance matching, search-term token
matching, CSV field serialization, sponsorship/ad detection over JSON
snippets, product extraction, the location-setter verification logic, and
the batch input validation and term expansion.  JavaScript numbers are
modelled as exact rationals, JavaScript strings as Lean strings over their
character lists, and JSON values as an inductive tree.  Character classes
follow the ASCII semantics of the non-unicode JS regexes used by the code.
-/

namespace QuickScraper

/-! ## Basic character and string helpers (JS semantics, ASCII range) -/

/-- JS whitespace class used by String.prototype.trim and the regex class
backslash-s, restricted to its ASCII members (space, tab, LF, VT, FF, CR). -/
def isJsWhitespace (c : Char) : Bool :=
  c = ' ' || c = '\t' || c = '\n' || c = '\x0b' || c = '\x0c' || c = '\r'

/-- JS word character class (letters, digits, underscore) used by the
word-boundary assertion of a non-unicode regex. -/
def isWordChar (c : Char) : Bool :=
  c.isAlpha || c.isDigit || c = '_'

/-- Lowercase ASCII letter test, for case classes of the form a-z. -/
def isLowerAlpha (c : Char) : Bool :=
  'a' ≤ c && c ≤ 'z'

/-- String.prototype.toLowerCase, ASCII range (all characters the embedded
regexes can match are ASCII). -/
def lowerStr (s : String) : String :=
  String.mk (s.data.map Char.toLower)

/-- String.prototype.trim over the modelled whitespace class. -/
def jsTrim (s : String) : String :=
  String.mk (((s.data.dropWhile isJsWhitespace).reverse.dropWhile isJsWhitespace).reverse)

/-- Substring containment, the semantics of String.prototype.includes. -/
def containsSub : List Char → List Char → Bool
  | [], needle => needle.isEmpty
  | c :: t, needle => needle.isPrefixOf (c :: t) || containsSub t needle

/-- String variant of `containsSub`. -/
def strIncludes (s sub : String) : Bool :=
  containsSub s.data sub.data

/-- String.prototype.startsWith. -/
def strStartsWith (s pre : String) : Bool :=
  pre.data.isPrefixOf s.data

/-- String.prototype.endsWith. -/
def strEndsWith (s suf : String) : Bool :=
  suf.data.isSuffixOf s.data

/-- String length in characters (all relevant strings are ASCII, so this
agrees with the UTF-16 length JS uses). -/
def strLen (s : String) : ℕ := s.data.length

/-- String.prototype.slice (0, length - n): drop the last n characters. -/
def strDropRight (s : String) (n : ℕ) : String :=
  String.mk (s.data.take (s.data.length - n))

/-- Numeric value of a list of decimal digit characters. -/
def natOfDigits (l : List Char) : ℕ :=
  l.foldl (fun n c => 10 * n + (c.toNat - 48)) 0

/-- Exact value of a decimal literal with integer digits `ds` and optional
fractional digits `fs`, as produced by parseFloat on a match of the regex
group backslash-d+(.backslash-d+)? (modelled with exact rationals). -/
def ratOfDigitParts (ds fs : List Char) : ℚ :=
  if fs.isEmpty then (natOfDigits ds : ℚ)
  else (natOfDigits ds : ℚ) + (natOfDigits fs : ℚ) / 10 ^ fs.length

/-! ## Quantity normalization and tolerance matching
    (source: backend/blinkit/batchCsvService.js, `normalizeUnit`,
    `unitCategory`, `normalizeQuantity`, `parseQuantityToken`,
    `extractQuantityFromTerm`, `normalizeQuantityValue`, `matchesQuantity`) -/

/-- Quantity categories; the source uses the strings "weight", "volume",
"count" and "unknown". -/
inductive QCategory where
  | weight
  | volume
  | count
  | unknown
deriving DecidableEq

/-- Record `{value, unit, category}` returned by `normalizeQuantity`. -/
structure NormalizedQuantity where
  value : ℚ
  unit : String
  category : QCategory
deriving DecidableEq

def WEIGHT_UNITS : List String :=
  ["kg", "g", "gm", "gram", "grams", "kilogram", "kilograms", "mg"]

def VOLUME_UNITS : List String :=
  ["l", "lt", "ltr", "liter", "litre", "liters", "litres", "ml"]

def COUNT_UNITS : List String :=
  ["pc", "pcs", "piece", "pieces", "pack", "packs"]

/-- Source function `normalizeUnit(unit)`. -/
def normalizeUnit (unit : String) : String :=
  let u := lowerStr unit
  if u = "gm" then "g"
  else if u = "gram" ∨ u = "grams" then "g"
  else if u = "kilogram" ∨ u = "kilograms" then "kg"
  else if u = "lt" ∨ u = "ltr" then "l"
  else if u = "liter" ∨ u = "litre" ∨ u = "liters" ∨ u = "litres" then "l"
  else if u = "piece" ∨ u = "pieces" then "pc"
  else if u = "packs" then "pack"
  else u

/-- Source function `unitCategory(unit)`. -/
def unitCategory (unit : String) : QCategory :=
  let u := normalizeUnit unit
  if WEIGHT_UNITS.contains u then .weight
  else if VOLUME_UNITS.contains u then .volume
  else if COUNT_UNITS.contains u then .count
  else .unknown

/-- Source function `normalizeQuantity(value, unit)`: fold aliases to canonical units and
scale to grams / millilitres / pieces. -/
def normalizeQuantity (value : ℚ) (unit : String) : NormalizedQuantity :=
  let u := normalizeUnit unit
  match unitCategory u with
  | .weight =>
    if u = "kg" then ⟨value * 1000, "g", .weight⟩
    else if u = "mg" then ⟨value / 1000, "g", .weight⟩
    else ⟨value, "g", .weight⟩
  | .volume =>
    if u = "l" then ⟨value * 1000, "ml", .volume⟩
    else ⟨value, "ml", .volume⟩
  | .count => ⟨value, "pc", .count⟩
  | .unknown => ⟨value, u, .unknown⟩

/-- One attempt of the regex `\b(\d+(?:\.\d+)?)\s*([a-zA-Z]+)\b` at the
current position.  `prevWord` says whether the previous character is a word
character (for the leading word boundary; the trailing boundary is checked
on the character after the greedy letter run, where no backtracking can
succeed).  Returns the parsed numeric value and the unit characters. -/
def matchQtyAt (prevWord : Bool) (l : List Char) : Option (ℚ × List Char) :=
  if prevWord then none
  else
    let p1 := l.span Char.isDigit
    if p1.1.isEmpty then none
    else
      let p2 : List Char × List Char :=
        match p1.2 with
        | '.' :: rest =>
          let fsp := rest.span Char.isDigit
          if fsp.1.isEmpty then ([], p1.2) else (fsp.1, fsp.2)
        | _ => ([], p1.2)
      let r3 := p2.2.dropWhile isJsWhitespace
      let p3 := r3.span Char.isAlpha
      if p3.1.isEmpty then none
      else
        match p3.2 with
        | [] => some (ratOfDigitParts p1.1 p2.1, p3.1)
        | c :: _ => if isWordChar c then none else some (ratOfDigitParts p1.1 p2.1, p3.1)

/-- Leftmost match of `\b(\d+(?:\.\d+)?)\s*([a-zA-Z]+)\b`, scanning
position by position as the JS regex engine does. -/
def findQtyMatch : Bool → List Char → Option (ℚ × List Char)
  | _, [] => none
  | prevW, c :: rest =>
    match matchQtyAt prevW (c :: rest) with
    | some r => some r
    | none => findQtyMatch (isWordChar c) rest

/-- Source function `parseQuantityToken(str)`. -/
def parseQuantityToken (str : String) : Option NormalizedQuantity :=
  match findQtyMatch false str.data with
  | none => none
  | some p => some (normalizeQuantity p.1 (String.mk p.2))

/-- Source function `extractQuantityFromTerm(term)`: same regex, applied to the raw search
term (the unit is lowercased later by `normalizeUnit`). -/
def extractQuantityFromTerm (term : String) : Option NormalizedQuantity :=
  match findQtyMatch false term.data with
  | none => none
  | some p => some (normalizeQuantity p.1 (String.mk p.2))

/-- One attempt of the multiplier regex
`(\d+)\s*x\s*(\d+(?:\.\d+)?)\s*([a-zA-Z]+)` at the current position (the
input is already lowercased, so the case-insensitive flag is immaterial).
Returns (multiplier, value, unit characters). -/
def matchMultiAt (l : List Char) : Option (ℚ × ℚ × List Char) :=
  let m1 := l.span Char.isDigit
  if m1.1.isEmpty then none
  else
    match m1.2.dropWhile isJsWhitespace with
    | 'x' :: r3 =>
      let r4 := r3.dropWhile isJsWhitespace
      let p1 := r4.span Char.isDigit
      if p1.1.isEmpty then none
      else
        let p2 : List Char × List Char :=
          match p1.2 with
          | '.' :: rest =>
            let fsp := rest.span Char.isDigit
            if fsp.1.isEmpty then ([], p1.2) else (fsp.1, fsp.2)
          | _ => ([], p1.2)
        let r5 := p2.2.dropWhile isJsWhitespace
        let p3 := r5.span Char.isAlpha
        if p3.1.isEmpty then none
        else some ((natOfDigits m1.1 : ℚ), ratOfDigitParts p1.1 p2.1, p3.1)
    | _ => none

/-- Leftmost match of the multiplier regex. -/
def findMultiMatch : List Char → Option (ℚ × ℚ × List Char)
  | [] => none
  | c :: rest =>
    match matchMultiAt (c :: rest) with
    | some r => some r
    | none => findMultiMatch rest

/-- Source function `normalizeQuantityValue(qtyStr)`: `null` for empty or the "N/A"
sentinel; otherwise lowercase and trim, try the "NxQtyUnit" multiplier
format (scaling the normalized value by the multiplier), and fall back to
`parseQuantityToken`. -/
def normalizeQuantityValue (qtyStr : String) : Option NormalizedQuantity :=
  if qtyStr = "" ∨ qtyStr = "N/A" then none
  else
    let str := jsTrim (lowerStr qtyStr)
    match findMultiMatch str.data with
    | some m =>
      let normalized := normalizeQuantity m.2.1 (String.mk m.2.2)
      some ⟨normalized.value * m.1, normalized.unit, normalized.category⟩
    | none => parseQuantityToken str

/-- Math.abs. -/
def jsAbs (q : ℚ) : ℚ := if q < 0 then -q else q

/-- Source function `matchesQuantity(productQty, requestedQty)`: true with no requested
quantity; true when the product quantity cannot be determined; false on
category mismatch; otherwise a 10 percent tolerance check. -/
def matchesQuantity (productQty : String) (requestedQty : Option NormalizedQuantity) : Bool :=
  match requestedQty with
  | none => true
  | some rq =>
    match normalizeQuantityValue productQty with
    | none => true
    | some pq =>
      if rq.category ≠ pq.category then false
      else decide (jsAbs (pq.value - rq.value) ≤ rq.value * (1 / 10))

/-- The quantity stage of the filter pipeline in `runBlinkitBatchCsv`:
a product is excluded by the quantity filter iff a quantity was requested
and `matchesQuantity` fails. -/
def quantityFilterExcludes (term productQty : String) : Bool :=
  match extractQuantityFromTerm term with
  | none => false
  | some rq => !(matchesQuantity productQty (some rq))

/-! ## Search-term token matching
    (source: backend/blinkit/batchCsvService.js, `normalizeToken`,
    `extractCoreTokens`, `matchesSearchTerm`) -/

/-- Source function `normalizeToken(token)`: lowercase and singularize (ies to y, drop es,
drop a trailing s unless the token ends in ss), with the length guards of
the source. -/
def normalizeToken (token : String) : String :=
  if token = "" then ""
  else
    let t := lowerStr token
    if 4 < strLen t ∧ strEndsWith t "ies" then strDropRight t 3 ++ "y"
    else if 4 < strLen t ∧ strEndsWith t "es" then strDropRight t 2
    else if 3 < strLen t ∧ strEndsWith t "s" ∧ ¬ strEndsWith t "ss" then strDropRight t 1
    else t

/-- Separator class of the split regex `[\s,-]+`. -/
def isTokenSep (c : Char) : Bool :=
  isJsWhitespace c || c = ',' || c = '-'

/-- Split into maximal runs of non-separator characters.  The source splits
with `[\s,-]+` and immediately trims each piece and filters out empty
pieces; both pipelines below do so, and no piece of this split contains a
separator, so the result here is the already-trimmed, already-nonempty
token list. -/
def splitSepAux : List Char → List Char → List (List Char)
  | [], acc => if acc.isEmpty then [] else [acc.reverse]
  | c :: rest, acc =>
    if isTokenSep c then
      if acc.isEmpty then splitSepAux rest [] else acc.reverse :: splitSepAux rest []
    else splitSepAux rest (c :: acc)

/-- Tokenize a string on whitespace, comma and hyphen. -/
def splitTokens (s : String) : List String :=
  (splitSepAux s.data []).map String.mk

/-- The fixed stopword set of `extractCoreTokens`. -/
def coreStopwords : List String :=
  ["kg", "g", "gm", "gram", "grams", "kilogram", "kilograms",
   "pack", "packet", "combo", "x", "of", "and", "with", "fresh"]

/-- Full match of the pure-number regex `^\d+(\.\d+)?$`. -/
def isPureNumber (l : List Char) : Bool :=
  let p := l.span Char.isDigit
  if p.1.isEmpty then false
  else
    match p.2 with
    | [] => true
    | '.' :: rest => !rest.isEmpty && rest.all Char.isDigit
    | _ => false

/-- Unit alternation of the quantity-token regex in `extractCoreTokens`. -/
def qtyTokenUnits : List String :=
  ["kg", "g", "gm", "gram", "grams", "kilogram", "kilograms", "mg",
   "l", "lt", "ltr", "liter", "litre", "liters", "litres", "ml",
   "pc", "pcs", "piece", "pieces", "pack", "packs"]

/-- Full match of `^\d+(\.\d+)?(kg|g|...|packs)$`: a number followed by
exactly one of the listed unit spellings. -/
def isQtyToken (l : List Char) : Bool :=
  let p := l.span Char.isDigit
  if p.1.isEmpty then false
  else
    let rest :=
      match p.2 with
      | '.' :: r =>
        let fsp := r.span Char.isDigit
        if fsp.1.isEmpty then p.2 else fsp.2
      | _ => p.2
    qtyTokenUnits.contains (String.mk rest)

/-- Source function `extractCoreTokens(term)`: lowercase, split, drop stopwords, pure
numbers and quantity tokens, then singularize. -/
def extractCoreTokens (term : String) : List String :=
  ((((splitTokens (lowerStr term)).filter
      (fun t => !coreStopwords.contains t)).filter
      (fun t => !isPureNumber t.data)).filter
      (fun t => !isQtyToken t.data)).map normalizeToken
    |>.filter (fun t => t ≠ "")

/-- The normalized token list of a product name (the source builds a Set
from it; membership below is membership in this list). -/
def nameTokens (productName : String) : List String :=
  ((splitTokens (lowerStr productName)).map normalizeToken).filter (fun t => t ≠ "")

/-- Source function `matchesSearchTerm(productName, term)`: every core token of the term
occurs among the normalized tokens of the product name; an empty core
token list matches everything. -/
def matchesSearchTerm (productName term : String) : Bool :=
  let nameTokenSet := nameTokens productName
  let tokens := extractCoreTokens term
  if tokens.isEmpty then true
  else tokens.all (fun t => nameTokenSet.contains t)

/-! ## CSV field serialization
    (source: backend/blinkit/batchCsvService.js, `toCsvValue`) -/

/-- True iff the field matches `[",\n]`: it contains a double quote, a
comma or a newline. -/
def needsCsvQuote (s : String) : Bool :=
  s.data.any (fun c => c = '"' || c = ',' || c = '\n')

/-- The call `str.replace(/"/g, ...)` of the source: double every double quote. -/
def doubleQuotes : List Char → List Char
  | [] => []
  | c :: rest => if c = '"' then '"' :: '"' :: doubleQuotes rest else c :: doubleQuotes rest

/-- Source function `toCsvValue(value)`: empty string for null/undefined; wrap in double
quotes, doubling internal quotes, iff the field contains a comma, double
quote or newline; otherwise the field itself. -/
def toCsvValue (value : Option String) : String :=
  match value with
  | none => ""
  | some str =>
    if needsCsvQuote str then "\"" ++ String.mk (doubleQuotes str.data) ++ "\""
    else str

/-- Collapse doubled double quotes, the inverse transformation a standard
CSV reader applies inside a quoted field. -/
def undoubleQuotes : List Char → List Char
  | [] => []
  | [c] => [c]
  | c :: d :: rest =>
    if c = '"' && d = '"' then '"' :: undoubleQuotes rest
    else c :: undoubleQuotes (d :: rest)

/-- A standard (RFC 4180) parse of one CSV field: a field wrapped in
double quotes is unwrapped and its doubled quotes collapsed; any other
field denotes itself. -/
def parseCsvField (s : String) : String :=
  match s.data with
  | '"' :: rest =>
    if rest.getLast? = some '"' then String.mk (undoubleQuotes rest.dropLast) else s
  | _ => s

/-! ## JSON values
    Snippets and payloads are loosely structured JSON; we model them as a
    tagged tree.  JS `undefined` (absent property) is represented by an
    absent key, i.e. `Option.none` from lookups. -/

inductive JValue where
  | null
  | bool (b : Bool)
  | num (q : ℚ)
  | str (s : String)
  | arr (xs : List JValue)
  | obj (fields : List (String × JValue))

/-- JS truthiness (NaN is not modelled; numbers are exact rationals). -/
def jvTruthy : JValue → Bool
  | .null => false
  | .bool b => b
  | .num q => decide (q ≠ 0)
  | .str s => s ≠ ""
  | .arr _ => true
  | .obj _ => true

/-- Property access `v[k]`: `none` models `undefined` (also for access on
primitives, which never have these properties). -/
def getField : JValue → String → Option JValue
  | .obj fs, k => fs.lookup k
  | _, _ => none

/-- Optional-chained property access `v?.k` composed over two keys. -/
def getField2 (v : JValue) (k1 k2 : String) : Option JValue :=
  (getField v k1).bind (fun w => getField w k2)

/-- Whether an optional lookup produced a truthy value. -/
def jvTruthyOpt : Option JValue → Bool
  | none => false
  | some v => jvTruthy v

mutual

/-- JS String(x) coercion.  Number formatting is approximated (the claims
only apply it to strings); arrays stringify as their comma-joined
elements and plain objects as the usual object marker. -/
def jvToString : JValue → String
  | .null => "null"
  | .bool true => "true"
  | .bool false => "false"
  | .num q => toString q
  | .str s => s
  | .arr xs => jvListToString xs
  | .obj _ => "[object Object]"

/-- Comma-joined stringification of array elements. -/
def jvListToString : List JValue → String
  | [] => ""
  | [x] => jvToString x
  | x :: y :: xs => jvToString x ++ "," ++ jvListToString (y :: xs)

end

/-! ## Sponsorship / ad detection
    (source: backend/blinkit/searchHelpers.js, `isSponsoredSnippet`,
    `hasAdSignal`) -/

/-- Whole-word test of `\b(ad|ads|advertisement|sponsored|sponsor|advert)\b`
(case-insensitive; the string is lowercased here, matching the i flag on
ASCII). -/
def adBadgeWords : List String :=
  ["ad", "ads", "advertisement", "sponsored", "sponsor", "advert"]

/-- Word list of the string patterns inside `hasAdSignal`: standalone ad,
advertisement, sponsored, advert, each with word boundaries. -/
def adSignalWords : List String :=
  ["ad", "advertisement", "sponsored", "advert"]

/-- One word of the alternation matches at the current position: the word
is a prefix here, the previous character is not a word character (leading
boundary; every word starts with a letter) and the character after the
word, if any, is not a word character (trailing boundary). -/
def matchWordAt (prevWord : Bool) (l w : List Char) : Bool :=
  if prevWord then false
  else
    w.isPrefixOf l &&
      (match l.drop w.length with
       | [] => true
       | c :: _ => !isWordChar c)

/-- Scan for a whole-word match of any word of `ws` (all lowercase; the
subject is lowercased first). -/
def wordScanAux (ws : List (List Char)) : Bool → List Char → Bool
  | _, [] => false
  | prevW, c :: rest =>
    ws.any (fun w => matchWordAt prevW (c :: rest) w) || wordScanAux ws (isWordChar c) rest

/-- Case-insensitive whole-word test of any of `words` in `s`. -/
def testWholeWords (words : List String) (s : String) : Bool :=
  wordScanAux (words.map (fun w => w.data)) false (lowerStr s).data

/-- The looser pattern `(^|[^a-z])ad([^a-z]|$)|sponsor|advert` (with the i
flag) applied to string values of keys containing address/badge/label.
Under the i flag, `[^a-z]` excludes letters of either case, so on the
lowercased string it is exactly "not a lowercase ASCII letter". -/
def adLooseAtHere (prevLetter : Bool) (l : List Char) : Bool :=
  if prevLetter then false
  else
    match l with
    | 'a' :: 'd' :: r =>
      match r with
      | [] => true
      | c :: _ => !isLowerAlpha c
    | _ => false

def adLooseScanAux : Bool → List Char → Bool
  | _, [] => false
  | prevLetter, c :: rest =>
    adLooseAtHere prevLetter (c :: rest) || adLooseScanAux (isLowerAlpha c) rest

def testLooseAd (s : String) : Bool :=
  let l := (lowerStr s).data
  adLooseScanAux false l || containsSub l "sponsor".data || containsSub l "advert".data

/-- The key patterns of the generic scan: `^ad$`, `^ads$`, `^ad_`, `_ad$`,
`^sponsored$`, `^sponsored_`, `_sponsored$`, `^advertisement$`,
`^advert$`, applied to the lowercased key. -/
def adKeyMatch (k : String) : Bool :=
  k = "ad" || k = "ads" || strStartsWith k "ad_" || strEndsWith k "_ad" ||
    k = "sponsored" || strStartsWith k "sponsored_" || strEndsWith k "_sponsored" ||
    k = "advertisement" || k = "advert"

/-- Test `val === true || typeof val === "number" || typeof val === "string"`. -/
def jvIsTrueNumOrStr : JValue → Bool
  | .bool true => true
  | .num _ => true
  | .str _ => true
  | _ => false

/-- Object.entries of an array: index keys stringified, as JS does. -/
def arrEntries (xs : List JValue) : List (String × JValue) :=
  xs.enum.map (fun p => (Nat.repr p.1, p.2))

/-- One entry of the depth-bounded scan.  Keys containing address, badge or
label are excluded from the generic treatment: only a string value matching
the loose ad pattern counts, and the scan does not recurse into them.
Other keys trigger on an ad/sponsor key name holding a boolean true, a
number or a string, and the scan recurses into the value. -/
def adEntryCheck (recur : JValue → Bool) (p : String × JValue) : Bool :=
  let keyStr := lowerStr p.1
  if strIncludes keyStr "address" || strIncludes keyStr "badge" || strIncludes keyStr "label" then
    match p.2 with
    | .str s => testLooseAd s
    | _ => false
  else
    (adKeyMatch keyStr && jvIsTrueNumOrStr p.2) || recur p.2

/-- Source function `hasAdSignal(value, depth)` written with the remaining recursion budget
as fuel: the source returns false when `depth > 4` and recurses with
`depth + 1`, so a call at depth d has fuel 5 - d and the top-level call
has fuel 5. -/
def hasAdSignalF : ℕ → JValue → Bool
  | 0, _ => false
  | Nat.succ f, v =>
    if !jvTruthy v then false
    else
      match v with
      | .str s => testWholeWords adSignalWords s
      | .arr xs => (arrEntries xs).any (fun p => adEntryCheck (hasAdSignalF f) p)
      | .obj fs => fs.any (fun p => adEntryCheck (hasAdSignalF f) p)
      | _ => false

/-- Source function `hasAdSignal(value, depth)` with its depth argument. -/
def hasAdSignal (value : JValue) (depth : ℕ) : Bool :=
  hasAdSignalF (5 - depth) value

/-- The expression `snip?.data || {}`. -/
def rawOf (snip : JValue) : JValue :=
  match getField snip "data" with
  | some v => if jvTruthy v then v else JValue.obj []
  | none => JValue.obj []

/-- The expression `String(snip?.widget_type || "").toLowerCase()`. -/
def widgetTypeString (snip : JValue) : String :=
  match getField snip "widget_type" with
  | some v => if jvTruthy v then lowerStr (jvToString v) else ""
  | none => ""

/-- The fixed explicit-flag key set. -/
def sponsorFlagKeys : List String :=
  ["is_ad", "is_sponsored", "sponsored", "advertisement"]

/-- Whether `raw[key] === true`. -/
def flagIsTrue (raw : JValue) (k : String) : Bool :=
  match getField raw k with
  | some (.bool true) => true
  | _ => false

/-- The fixed badge/label text fields:
`raw.badge?.text, raw.ad_badge?.text, raw.label?.text,
raw.sponsored_tag?.text, raw.promo_label?.text`, truthy ones only. -/
def sponsorTextFields (raw : JValue) : List JValue :=
  ([getField2 raw "badge" "text", getField2 raw "ad_badge" "text",
    getField2 raw "label" "text", getField2 raw "sponsored_tag" "text",
    getField2 raw "promo_label" "text"].filterMap id).filter jvTruthy

/-- The truthy `text` entries of `raw.badges` when it is an array. -/
def badgeTexts (raw : JValue) : List JValue :=
  match getField raw "badges" with
  | some (.arr bs) => ((bs.map (fun b => getField b "text")).filterMap id).filter jvTruthy
  | _ => []

/-- Source function `isSponsoredSnippet(snip)`: the disjunction of the five checks of the
source, in source order (early returns become disjuncts). -/
def isSponsoredSnippet (snip : JValue) : Bool :=
  let raw := rawOf snip
  let widgetType := widgetTypeString snip
  (strIncludes widgetType "ad" || strIncludes widgetType "sponsor") ||
    sponsorFlagKeys.any (fun k => flagIsTrue raw k) ||
    (sponsorTextFields raw).any (fun t => testWholeWords adBadgeWords (jvToString t)) ||
    (badgeTexts raw).any (fun t => testWholeWords adBadgeWords (jvToString t)) ||
    hasAdSignalF 5 snip

/-! ## Product extraction
    (source: backend/blinkit/searchHelpers.js, `extractProductInformation`) -/

/-- A normalized product record.  Fields that the source fills with raw
snippet values keep the JSON type; `savings` and `discount` are computed
strings (or null). -/
structure Product where
  id : JValue
  name : JValue
  price : JValue
  originalPrice : Option JValue
  savings : Option String
  quantity : JValue
  deliveryTime : JValue
  discount : Option String
  imageUrl : JValue
  available : Bool

/-- The member `snip.data` (undefined modelled as null, which is equally falsy). -/
def dataOf (snip : JValue) : JValue :=
  match getField snip "data" with
  | some d => d
  | none => JValue.null

/-- Strict equality of an optional JSON value with a string literal. -/
def isStrEq (v : Option JValue) (s : String) : Bool :=
  match v with
  | some (.str t) => t = s
  | _ => false

/-- Boolean value of the non-product guard — `!snip.data`, the
structural-header widget type, `!snip.data.name`, `!snip.data.identity`,
or the container sentinel id — for the snippets on which evaluating it
does not throw.  The guard runs outside the per-snippet try/catch, and its
first clause dereferences `snip.data`: on a null (or undefined) snippets
entry that property access throws a TypeError, which is not modelled here
but in `snippetNotProductE`.  On every other value property access is
safe (primitives yield undefined) and the guard evaluates to this
boolean. -/
def snippetNotProduct (snip : JValue) : Bool :=
  let d := dataOf snip
  !jvTruthy d ||
    isStrEq (getField snip "widget_type") "image_text_vr_type_header" ||
    !jvTruthyOpt (getField d "name") ||
    !jvTruthyOpt (getField d "identity") ||
    isStrEq ((getField d "identity").bind (fun i => getField i "id")) "product_container"

/-- The non-product guard as it executes: evaluating `!snip.data` on a
null snippets entry throws (outside the per-snippet try/catch, so the
error escapes the forEach and aborts the whole extraction); otherwise the
guard yields its boolean value. -/
def snippetNotProductE (snip : JValue) : Except Unit Bool :=
  match snip with
  | .null => .error ()
  | _ => .ok (snippetNotProduct snip)

/-- The pattern `a && a.k ? a.k : fallback` as a helper: the truthy `k` member of a
truthy `a`, if any. -/
def truthyMember (a : JValue) (k : String) : Option JValue :=
  if jvTruthy a then
    match getField a k with
    | some t => if jvTruthy t then some t else none
    | none => none
  else none

/-- Number.prototype.toFixed(2) for the nonnegative prices that occur,
modelled as exact decimal rounding (half up). -/
def toFixed2 (q : ℚ) : String :=
  let n : ℤ := ⌊q * 100 + 1 / 2⌋
  let whole := n / 100
  let frac := (n % 100).toNat
  toString whole ++ "." ++ (if frac < 10 then "0" ++ Nat.repr frac else Nat.repr frac)

/-- Number.prototype.toFixed(0), same convention. -/
def toFixed0 (q : ℚ) : String :=
  toString (⌊q + 1 / 2⌋ : ℤ)

/-- First match of the currency regex `₹\s*(\d+(?:\.\d+)?)`: scan for the
currency sign, skip whitespace, read a decimal number. -/
def scanCurrency : List Char → Option ℚ
  | [] => none
  | c :: rest =>
    if c = '₹' then
      let r := rest.dropWhile isJsWhitespace
      let p := r.span Char.isDigit
      if p.1.isEmpty then scanCurrency rest
      else
        let fs : List Char :=
          match p.2 with
          | '.' :: r2 =>
            let fsp := r2.span Char.isDigit
            if fsp.1.isEmpty then [] else fsp.1
          | _ => []
        some (ratOfDigitParts p.1 fs)
    else scanCurrency rest

/-- The call `v.match(regex)` throws a TypeError when `v` is not a string (the
per-snippet try/catch turns that into a skip): the error case of the
exception monad. -/
def jvMatchCurrency : JValue → Except Unit (Option ℚ)
  | .str s => .ok (scanCurrency s.data)
  | _ => .error ()

/-- The call `text.replace(/\n/g, " ")`, throwing on non-strings. -/
def jvReplaceNewlines : JValue → Except Unit String
  | .str s => .ok (String.mk (s.data.map (fun c => if c = '\n' then ' ' else c)))
  | _ => .error ()

/-- The `available` computation: `is_sold_out` (negated truthiness) takes
precedence; otherwise `inventory > 0` (JS comparison, approximated for
strings by a plain decimal read); a snippet with neither key is
available. -/
def jvGtZero : JValue → Bool
  | .num q => decide (0 < q)
  | .bool b => b
  | .str s =>
    let l := (jsTrim s).data
    if isPureNumber l then decide ((0 : ℚ) < ratOfDigitParts (l.takeWhile Char.isDigit) ((l.dropWhile Char.isDigit).drop 1)) else false
  | _ => false

def availOf (raw : JValue) : Bool :=
  match getField raw "is_sold_out" with
  | some v => !jvTruthy v
  | none =>
    match getField raw "inventory" with
    | some v => jvGtZero v
    | none => true

/-- The discount computation of the source: `offer_tag.title.text` with
newlines replaced (throwing on a truthy non-string text), else null. -/
def discountOf (raw : JValue) : Except Unit (Option String) :=
  match (truthyMember raw "offer_tag").bind (fun t => truthyMember t "title") |>.bind (fun t => truthyMember t "text") with
  | some t =>
    match jvReplaceNewlines t with
    | .ok s => .ok (some s)
    | .error e => .error e
  | none => .ok none

/-- The savings computation: when both a (truthy) original price and the
price are present, parse a currency amount out of both formatted strings
(throwing when either is not a string, as `.match` would) and report the
difference when the original exceeds the current. -/
def savingsOf (price : JValue) (origPrice : Option JValue) : Except Unit (Option String) :=
  match origPrice with
  | none => .ok none
  | some op =>
    if jvTruthy op && jvTruthy price then
      match jvMatchCurrency price with
      | .error e => .error e
      | .ok prMatch =>
        match jvMatchCurrency op with
        | .error e => .error e
        | .ok opMatch =>
          match prMatch, opMatch with
          | some curPrice, some orgPrice =>
            .ok (if curPrice < orgPrice then some ("₹" ++ toFixed0 (orgPrice - curPrice)) else none)
          | _, _ => .ok none
    else .ok none

/-- The pattern `a && a.k1 && a.k1.k2 ? a.k1.k2 : ...`: the truthy `k2` member of the
truthy `k1` member. -/
def condMember2 (raw : JValue) (k1 k2 : String) : Option JValue :=
  (truthyMember raw k1).bind (fun a => truthyMember a k2)

/-- The body of the per-snippet try block: field extraction with graceful
fallbacks; the result is an error exactly when one of the modelled
string-method calls throws (a TypeError the source catches per snippet). -/
def processSnippet (idx : ℕ) (snip : JValue) : Except Unit Product :=
  let raw := dataOf snip
  let id : JValue :=
    match (getField raw "identity").bind (fun i => getField i "id") with
    | some v => if jvTruthy v then v else JValue.str ("product_" ++ Nat.repr idx)
    | none => JValue.str ("product_" ++ Nat.repr idx)
  let name : JValue :=
    (condMember2 raw "name" "text").getD (JValue.str "Product Name Not Available")
  let price : JValue :=
    match condMember2 raw "normal_price" "text" with
    | some t => t
    | none =>
      match getField raw "price" with
      | some (.num q) =>
        if decide (q ≠ 0) then JValue.str ("₹" ++ toFixed2 q)
        else JValue.str "Price Not Available"
      | _ => JValue.str "Price Not Available"
  let origPrice : Option JValue := condMember2 raw "mrp" "text"
  let qty : JValue := (condMember2 raw "variant" "text").getD (JValue.str "N/A")
  let imgUrl : JValue := (condMember2 raw "image" "url").getD (JValue.str "")
  let delTime : JValue :=
    (((truthyMember raw "eta_tag").bind (fun a => truthyMember a "title")).bind
      (fun a => truthyMember a "text")).getD (JValue.str "N/A")
  match discountOf raw with
  | .error e => .error e
  | .ok disc =>
    let avail := availOf raw
    match savingsOf price origPrice with
    | .error e => .error e
    | .ok savings =>
      .ok ⟨id, name, price, origPrice, savings, qty, delTime, disc, imgUrl, avail⟩

/-- The guard of `extractProductInformation`: the snippet list of the
payload, when the payload is truthy, has a truthy `response` member and
`response.snippets` is an array. -/
def getSnippets (payload : JValue) : Option (List JValue) :=
  if !jvTruthy payload then none
  else
    match getField payload "response" with
    | some resp =>
      if !jvTruthy resp then none
      else
        match getField resp "snippets" with
        | some (.arr snips) => some snips
        | _ => none
    | none => none

/-- The forEach over snippets: sponsored snippets are skipped
(`isSponsoredSnippet` is safe on every value); the non-product guard can
throw (null entry) — that error escapes the forEach and aborts the whole
extraction, losing the products accumulated so far; a snippet the guard
skips contributes nothing; a snippet whose try-block processing throws is
skipped individually; everything else contributes a product, in order.
The index is the forEach index. -/
def extractAuxE : ℕ → List JValue → Except Unit (List Product)
  | _, [] => .ok []
  | idx, snip :: rest =>
    if isSponsoredSnippet snip then extractAuxE (idx + 1) rest
    else
      match snippetNotProductE snip with
      | .error e => .error e
      | .ok true => extractAuxE (idx + 1) rest
      | .ok false =>
        match processSnippet idx snip with
        | .ok p => Except.map (fun ps => p :: ps) (extractAuxE (idx + 1) rest)
        | .error _ => extractAuxE (idx + 1) rest

/-- Source function `extractProductInformation(prodJson)`: an empty list
for payloads without a `response.snippets` array, otherwise the snippet
fold (whose uncaught guard error propagates to the caller). -/
def extractProductInformation (payload : JValue) : Except Unit (List Product) :=
  match getSnippets payload with
  | none => .ok []
  | some snips => extractAuxE 0 snips

/-- The 30-second timeout fallback marker `{useHtmlExtraction: true, page}`
that `runBlinkitSearchWithMeta` feeds to extraction when no qualifying
network response arrives (the page handle is opaque to extraction and is
modelled as null). -/
def fallbackMarker : JValue :=
  JValue.obj [("useHtmlExtraction", JValue.bool true), ("page", JValue.null)]

/-! ## Location setter
    (source: the retrying `setBlinkitLocation` of blinkit/set-location.js
    as given in the repository snapshot with the two-attempt loop;
    `isLocationSet`).  The page interactions of one attempt (navigation,
    opening the picker, typing, clicking a suggestion) are environment
    effects; the pure content of an attempt is the label that
    `isLocationSet` reads afterwards.  `labels i` is that label for attempt
    i (i = 1, 2); `isLocationSet` returns the sentinel "400" when no label
    is found, and the site-root reload between attempts is part of the
    abstracted environment. -/

/-- The pincode test `/^\d{6}$/.test(locStr)`. -/
def isSixDigitPincode (loc : String) : Bool :=
  loc.data.length = 6 && loc.data.all Char.isDigit

/-- One attempt verifies: the label is truthy, not the "400" sentinel, and
when the requested location text is a 6-digit pincode the label contains it
as a substring. -/
def verifyBlinkitLabel (loc locTitle : String) : Bool :=
  locTitle ≠ "" && locTitle ≠ "400" &&
    (!isSixDigitPincode loc || strIncludes locTitle loc)

/-- Source function `setBlinkitLocation(page, loc)`: the two-attempt loop, returning the
first verified label, and null when both attempts fail verification. -/
def setBlinkitLocationModel (loc : String) (labels : ℕ → String) : Option String :=
  if verifyBlinkitLabel loc (labels 1) then some (labels 1)
  else if verifyBlinkitLabel loc (labels 2) then some (labels 2)
  else none

/-! ## Batch orchestration
    (source: backend/blinkit/batchCsvService.js, `runBlinkitBatchCsv`:
    input validation and search-term expansion; the browser-driving body
    is an environment effect and is abstracted away, and the validation
    precedes the browser launch in the source). -/

def isArrayJ : JValue → Bool
  | .arr _ => true
  | _ => false

def nonEmptyArrayJ : JValue → Bool
  | .arr xs => !xs.isEmpty
  | _ => false

/-- The three validation checks, in source order, with the source error
messages. -/
def batchInputError (pincodes searchTerms quantities : JValue) : Option String :=
  if !nonEmptyArrayJ pincodes then some "pincodes must be a non-empty array"
  else if !nonEmptyArrayJ searchTerms then some "searchTerms must be a non-empty array"
  else if !isArrayJ quantities then some "quantities must be an array"
  else none

/-- The expansion of search terms by quantities: the cross product of
template-concatenated, trimmed query strings when quantities is non-empty,
the original term list otherwise. -/
def expandSearchTerms (searchTerms quantities : List String) : List String :=
  if 0 < quantities.length then
    searchTerms.flatMap (fun term => quantities.map (fun qty => jsTrim (term ++ " " ++ qty)))
  else searchTerms

/-- Elements of a JSON array as strings (the template literal coerces). -/
def strListOf : JValue → List String
  | .arr xs => xs.map jvToString
  | _ => []

/-- The validation-and-expansion prefix of `runBlinkitBatchCsv`: an input
error is thrown before any browser work; otherwise the batch proceeds over
the expanded search term list (the value returned here). -/
def runBlinkitBatchCsvModel (pincodes searchTerms quantities : JValue) :
    Except String (List String) :=
  match batchInputError pincodes searchTerms quantities with
  | some e => .error e
  | none => .ok (expandSearchTerms (strListOf searchTerms) (strListOf quantities))

/-! ## Concrete example values used by witnesses -/

/-- An ordinary product snippet that extracts cleanly. -/
def exampleGoodSnippet : JValue :=
  JValue.obj [("widget_type", JValue.str "product"),
    ("data", JValue.obj
      [("name", JValue.obj [("text", JValue.str "Onion")]),
       ("identity", JValue.obj [("id", JValue.str "p1")]),
       ("variant", JValue.obj [("text", JValue.str "1 kg")]),
       ("normal_price", JValue.obj [("text", JValue.str "₹30")]),
       ("eta_tag", JValue.obj [("title", JValue.obj [("text", JValue.str "10 mins")])])])]

/-- A product snippet whose processing throws: `mrp.text` is a truthy
non-string, so `origPrice.match(...)` raises a TypeError. -/
def exampleErrorSnippet : JValue :=
  JValue.obj [("widget_type", JValue.str "product"),
    ("data", JValue.obj
      [("name", JValue.obj [("text", JValue.str "Potato")]),
       ("identity", JValue.obj [("id", JValue.str "p2")]),
       ("normal_price", JValue.obj [("text", JValue.str "₹40")]),
       ("mrp", JValue.obj [("text", JValue.num 50)])])]

/-- The apostrophe character (U+0027). -/
def apos : Char := Char.ofNat 39

/-- The field of the CSV round-trip example of the spec. -/
def csvExampleField : String :=
  "Tom" ++ String.mk [apos] ++ "s \"Special\", Tomatoes"

/-- Its expected serialization. -/
def csvExampleOut : String :=
  "\"Tom" ++ String.mk [apos] ++ "s \"\"Special\"\", Tomatoes\""

/-! ## Helper lemmas -/

theorem jsAbs_eq_abs (q : ℚ) : jsAbs q = |q| := by
  unfold jsAbs
  split
  · exact (abs_of_neg (by assumption)).symm
  · exact (abs_of_nonneg (not_lt.mp (by assumption))).symm

/-! ## Claim theorems -/

/-- Claim C1: for every requested quantity and product quantity string that
both parse, the quantity-tolerance match predicate holds iff the two
normalized quantities have equal category and the absolute difference of
their normalized values is at most 0.1 times the requested normalized
value; the product side handles an N-times multiplier by scaling, and
normalization maps kg to g by a factor 1000, mg to g by 1/1000, l to ml by
1000, with aliases folded to canonical units; a category mismatch such as
a weight request against a count product never matches. -/
theorem c1_quantity_tolerance :
    (∀ (term productQty : String) (rq pq : NormalizedQuantity),
        extractQuantityFromTerm term = some rq →
        normalizeQuantityValue productQty = some pq →
        (matchesQuantity productQty (some rq) = true ↔
          (pq.category = rq.category ∧ |pq.value - rq.value| ≤ rq.value * (1 / 10))))
    ∧ normalizeQuantity 1 "kg" = ⟨1000, "g", QCategory.weight⟩
    ∧ normalizeQuantity 1 "mg" = ⟨1 / 1000, "g", QCategory.weight⟩
    ∧ normalizeQuantity 1 "l" = ⟨1000, "ml", QCategory.volume⟩
    ∧ normalizeQuantityValue "2x500g" = some ⟨1000, "g", QCategory.weight⟩
    ∧ matchesQuantity "3pc" (some ⟨1000, "g", QCategory.weight⟩) = false := by
  refine ⟨?_, ?_, ?_, ?_, ?_, ?_⟩
  · intro term productQty rq pq h1 h2
    have hm : matchesQuantity productQty (some rq) =
        (if rq.category ≠ pq.category then false
         else decide (jsAbs (pq.value - rq.value) ≤ rq.value * (1 / 10))) := by
      unfold matchesQuantity
      rw [h2]
    rw [hm]
    by_cases hc : rq.category = pq.category
    · rw [if_neg (by simp [hc]), decide_eq_true_eq, jsAbs_eq_abs]
      constructor
      · intro hle
        exact ⟨hc.symm, hle⟩
      · intro hp
        exact hp.2
    · rw [if_pos hc]
      constructor
      · intro hfalse
        exact absurd hfalse (by simp)
      · intro hp
        exact absurd hp.1.symm hc
  · have h : normalizeQuantity 1 "kg" = ⟨(1 : ℚ) * 1000, "g", QCategory.weight⟩ := rfl
    rw [h]
    norm_num
  · rfl
  · have h : normalizeQuantity 1 "l" = ⟨(1 : ℚ) * 1000, "ml", QCategory.volume⟩ := rfl
    rw [h]
    norm_num
  · have h2 : normalizeQuantityValue "2x500g" =
        some ⟨ratOfDigitParts ['5', '0', '0'] [] * (natOfDigits ['2'] : ℚ), "g",
          QCategory.weight⟩ := rfl
    have h3 : ratOfDigitParts ['5', '0', '0'] [] = ((500 : ℕ) : ℚ) := rfl
    have h4 : natOfDigits ['2'] = 2 := rfl
    rw [h2, h3, h4]
    norm_num
  · rfl

/-- Witness for C1 at a concrete pair: the term "tomato 1kg" parses to a
weight request of 1000 grams, the product "3pc" to a count of 3 pieces, and
the characterization applies (it evaluates to a category mismatch, hence no
match). -/
theorem c1_quantity_tolerance_witness :
    extractQuantityFromTerm "tomato 1kg" =
      some ⟨ratOfDigitParts ['1'] [] * 1000, "g", QCategory.weight⟩
    ∧ normalizeQuantityValue "3pc" =
      some ⟨ratOfDigitParts ['3'] [], "pc", QCategory.count⟩
    ∧ (matchesQuantity "3pc"
        (some ⟨ratOfDigitParts ['1'] [] * 1000, "g", QCategory.weight⟩) = true ↔
        (QCategory.count = QCategory.weight ∧
          |ratOfDigitParts ['3'] [] - ratOfDigitParts ['1'] [] * 1000| ≤
            ratOfDigitParts ['1'] [] * 1000 * (1 / 10))) :=
  ⟨rfl, rfl,
    c1_quantity_tolerance.1 "tomato 1kg" "3pc"
      ⟨ratOfDigitParts ['1'] [] * 1000, "g", QCategory.weight⟩
      ⟨ratOfDigitParts ['3'] [], "pc", QCategory.count⟩ rfl rfl⟩

/-- Claim C8: the quantity filter is fail-open: a term with no parseable
quantity token never excludes, an unparseable product quantity (including
the "N/A" sentinel) never excludes, and the term "onions" does not exclude
a product quantity "500g". -/
theorem c8_quantity_fail_open :
    (∀ term productQty : String,
        extractQuantityFromTerm term = none →
        quantityFilterExcludes term productQty = false)
    ∧ (∀ term productQty : String,
        normalizeQuantityValue productQty = none →
        quantityFilterExcludes term productQty = false)
    ∧ (∀ rq : NormalizedQuantity, matchesQuantity "N/A" (some rq) = true)
    ∧ extractQuantityFromTerm "onions" = none
    ∧ quantityFilterExcludes "onions" "500g" = false := by
  refine ⟨?_, ?_, ?_, rfl, rfl⟩
  · intro term productQty h
    unfold quantityFilterExcludes
    rw [h]
  · intro term productQty h
    unfold quantityFilterExcludes
    cases hq : extractQuantityFromTerm term with
    | none => rfl
    | some rq =>
      have hmq : matchesQuantity productQty (some rq) = true := by
        unfold matchesQuantity
        rw [h]
      change (!(matchesQuantity productQty (some rq))) = false
      rw [hmq]
      rfl
  · intro rq
    rfl

/-- Witness for C8: a requested quantity together with the unparseable
product quantity sentinel "N/A" is not excluded. -/
theorem c8_quantity_fail_open_witness :
    quantityFilterExcludes "onions 1kg" "N/A" = false :=
  c8_quantity_fail_open.2.1 "onions 1kg" "N/A" rfl

/-- Claim C3: the term-token match holds iff every core token of the
(tokenized, filler-filtered, singularized) search term occurs among the
normalized tokens of the product name; an empty core token list matches
every name; and the match is case-insensitive and singularization-aware:
"Fresh Red Tomatoes 1kg" matches the term "tomato" but not "potato". -/
theorem c3_term_token_match :
    (∀ productName term : String,
        matchesSearchTerm productName term = true ↔
          ∀ t ∈ extractCoreTokens term, t ∈ nameTokens productName)
    ∧ (∀ productName term : String,
        extractCoreTokens term = [] → matchesSearchTerm productName term = true)
    ∧ matchesSearchTerm "Fresh Red Tomatoes 1kg" "tomato" = true
    ∧ matchesSearchTerm "Fresh Red Tomatoes 1kg" "potato" = false := by
  refine ⟨?_, ?_, rfl, rfl⟩
  · intro productName term
    by_cases he : extractCoreTokens term = []
    · simp [matchesSearchTerm, he]
    · simp only [matchesSearchTerm]
      rw [if_neg (by simp [List.isEmpty_iff, he])]
      constructor
      · intro h t ht
        exact List.elem_iff.mp (List.all_eq_true.mp h t ht)
      · intro h
        exact List.all_eq_true.mpr (fun t ht => List.elem_iff.mpr (h t ht))
  · intro productName term h
    simp [matchesSearchTerm, h]

/-- Witness for C3: the term "fresh 2" consists only of a filler word and a
pure number, so its core token list is empty and it matches any name. -/
theorem c3_term_token_match_witness :
    matchesSearchTerm "Banana" "fresh 2" = true :=
  c3_term_token_match.2.1 "Banana" "fresh 2" rfl

/-! Helper lemmas for the CSV round trip. -/

theorem string_eq_of_data {a b : String} (h : a.data = b.data) : a = b := by
  cases a
  cases b
  exact congrArg String.mk h

theorem undouble_cons_ne (c : Char) (X : List Char) (h : ¬ c = '"') :
    undoubleQuotes (c :: X) = c :: undoubleQuotes X := by
  cases X with
  | nil => rfl
  | cons d rest => simp [undoubleQuotes, h]

theorem undouble_doubleQuotes (l : List Char) :
    undoubleQuotes (doubleQuotes l) = l := by
  induction l with
  | nil => rfl
  | cons c t ih =>
    by_cases hc : c = '"'
    · subst hc
      have h1 : doubleQuotes ('"' :: t) = '"' :: '"' :: doubleQuotes t := rfl
      have h2 : undoubleQuotes ('"' :: '"' :: doubleQuotes t) =
          '"' :: undoubleQuotes (doubleQuotes t) := by
        simp [undoubleQuotes]
      rw [h1, h2, ih]
    · have h1 : doubleQuotes (c :: t) = c :: doubleQuotes t := by
        simp [doubleQuotes, hc]
      rw [h1, undouble_cons_ne c _ hc, ih]

theorem parseCsvField_quoted (x : List Char) :
    parseCsvField (String.mk ('"' :: (x ++ ['"']))) = String.mk (undoubleQuotes x) := by
  unfold parseCsvField
  simp [List.getLast?_concat, List.dropLast_concat]

theorem parseCsvField_no_quote (s : String) (h : '"' ∉ s.data) : parseCsvField s = s := by
  unfold parseCsvField
  cases hd : s.data with
  | nil => rfl
  | cons c rest =>
    have hc : c ≠ '"' := by
      intro hcq
      rw [hd, hcq] at h
      exact h (List.mem_cons_self _ _)
    split
    · next heq =>
      injection heq with h1 h2
      exact absurd h1 hc
    · rfl

/-- Claim C9: a CSV field is wrapped in double quotes with internal quotes
doubled iff it contains a comma, double quote or newline, and is unchanged
otherwise; the example field serializes as the spec states; and the
escaping round-trips through a standard CSV field parse for every field
value. -/
theorem c9_csv_field_roundtrip :
    (∀ s : String,
        needsCsvQuote s = true ↔ (',' ∈ s.data ∨ '"' ∈ s.data ∨ '\n' ∈ s.data))
    ∧ (∀ s : String, needsCsvQuote s = false → toCsvValue (some s) = s)
    ∧ (∀ s : String, needsCsvQuote s = true →
        toCsvValue (some s) = "\"" ++ String.mk (doubleQuotes s.data) ++ "\"")
    ∧ toCsvValue (some csvExampleField) = csvExampleOut
    ∧ (∀ s : String, parseCsvField (toCsvValue (some s)) = s) := by
  have hwrap : ∀ s : String, needsCsvQuote s = true →
      toCsvValue (some s) = "\"" ++ String.mk (doubleQuotes s.data) ++ "\"" := by
    intro s h
    simp [toCsvValue, h]
  refine ⟨?_, ?_, hwrap, by decide, ?_⟩
  · intro s
    unfold needsCsvQuote
    rw [List.any_eq_true]
    constructor
    · rintro ⟨x, hx, hor⟩
      simp only [Bool.or_eq_true, decide_eq_true_eq] at hor
      rcases hor with (h1 | h2) | h3
      · subst h1
        exact Or.inr (Or.inl hx)
      · subst h2
        exact Or.inl hx
      · subst h3
        exact Or.inr (Or.inr hx)
    · rintro (h | h | h)
      · exact ⟨',', h, by simp⟩
      · exact ⟨'"', h, by simp⟩
      · exact ⟨'\n', h, by simp⟩
  · intro s h
    simp [toCsvValue, h]
  · intro s
    by_cases h : needsCsvQuote s = true
    · rw [hwrap s h]
      have hdata : ("\"" ++ String.mk (doubleQuotes s.data) ++ "\"") =
          String.mk ('"' :: (doubleQuotes s.data ++ ['"'])) := by
        apply string_eq_of_data
        simp [String.data_append]
      rw [hdata, parseCsvField_quoted, undouble_doubleQuotes]
    · have hf : needsCsvQuote s = false := by
        exact Bool.not_eq_true _ ▸ (by simpa using h)
      have hnc : toCsvValue (some s) = s := by
        simp [toCsvValue, hf]
      rw [hnc]
      apply parseCsvField_no_quote
      intro hmem
      apply h
      unfold needsCsvQuote
      rw [List.any_eq_true]
      exact ⟨'"', hmem, by simp⟩

/-- Witness for C9: a plain field needs no quoting and is serialized
unchanged. -/
theorem c9_csv_field_roundtrip_witness :
    needsCsvQuote "Onion 1 kg" = false ∧ toCsvValue (some "Onion 1 kg") = "Onion 1 kg" :=
  ⟨rfl, c9_csv_field_roundtrip.2.1 "Onion 1 kg" rfl⟩

/-- Counterexample to C6 as stated: the source trims each concatenated
query string, so for a term with leading whitespace the expanded term is
not the term followed by a space and the quantity. -/
theorem c6_expansion_counterexample :
    expandSearchTerms [" onions"] ["1kg"] ≠ [" onions" ++ " " ++ "1kg"] := by
  decide

/-- Claim C6 (amended: each expanded term is the term followed by a space
and the quantity, trimmed of leading and trailing whitespace): with a
non-empty quantities list the expansion is the cross product of trimmed
concatenations; with an empty quantities list the search terms are used
unchanged; and terms ["onions"] with quantities ["1kg"] expand to exactly
["onions 1kg"]. -/
theorem c6_expansion :
    (∀ ts qs : List String, qs ≠ [] →
        expandSearchTerms ts qs =
          ts.flatMap (fun term => qs.map (fun qty => jsTrim (term ++ " " ++ qty))))
    ∧ (∀ ts : List String, expandSearchTerms ts [] = ts)
    ∧ expandSearchTerms ["onions"] ["1kg"] = ["onions 1kg"] := by
  refine ⟨?_, ?_, rfl⟩
  · intro ts qs h
    unfold expandSearchTerms
    rw [if_pos (List.length_pos.mpr h)]
  · intro ts
    rfl

/-- Witness for C6: the cross-product characterization applied at the
concrete batch of the spec example. -/
theorem c6_expansion_witness :
    expandSearchTerms ["onions"] ["1kg"] =
      ["onions"].flatMap (fun term => ["1kg"].map (fun qty => jsTrim (term ++ " " ++ qty))) :=
  c6_expansion.1 ["onions"] ["1kg"] (by decide)

/-- Claim C7: the batch entry point fails with an input-validation error,
before any browser work (the validation is the first thing the model runs)
and with no retry, iff pincodes is empty or not an array, searchTerms is
empty or not an array, or quantities is not an array. -/
theorem c7_batch_input_validation :
    (∀ p s q : JValue,
        batchInputError p s q = none ↔
          (nonEmptyArrayJ p = true ∧ nonEmptyArrayJ s = true ∧ isArrayJ q = true))
    ∧ (∀ p s q : JValue, ∀ e, batchInputError p s q = some e →
        runBlinkitBatchCsvModel p s q = Except.error e)
    ∧ (∀ p s q : JValue, batchInputError p s q = none →
        runBlinkitBatchCsvModel p s q =
          Except.ok (expandSearchTerms (strListOf s) (strListOf q))) := by
  refine ⟨?_, ?_, ?_⟩
  · intro p s q
    unfold batchInputError
    constructor
    · intro h
      by_cases h1 : nonEmptyArrayJ p = true
      · by_cases h2 : nonEmptyArrayJ s = true
        · by_cases h3 : isArrayJ q = true
          · exact ⟨h1, h2, h3⟩
          · simp [h1, h2, h3] at h
        · simp [h1, h2] at h
      · simp [h1] at h
    · rintro ⟨h1, h2, h3⟩
      simp [h1, h2, h3]
  · intro p s q e h
    unfold runBlinkitBatchCsvModel
    rw [h]
  · intro p s q h
    unfold runBlinkitBatchCsvModel
    rw [h]

/-- Witness for C7: an empty pincode list is rejected with the source
error message before anything else happens. -/
theorem c7_batch_input_validation_witness :
    runBlinkitBatchCsvModel (JValue.arr []) (JValue.arr [JValue.str "onions"])
      (JValue.arr []) = Except.error "pincodes must be a non-empty array" :=
  c7_batch_input_validation.2.1 (JValue.arr []) (JValue.arr [JValue.str "onions"])
    (JValue.arr []) "pincodes must be a non-empty array" rfl

/-- Claim C4: the location setter makes up to 2 total attempts (reloading
the site root between attempts is part of the abstracted environment) and
returns null iff both attempts fail verification; an attempt verifies iff
its confirmed label is non-empty and not the "400" sentinel and, when the
requested location text is a 6-digit pincode, contains that pincode as a
substring; and when attempt 1 fails verification but attempt 2 succeeds,
the returned value is attempt 2 label. -/
theorem c4_location_setter :
    ∀ (loc : String) (labels : ℕ → String),
      (setBlinkitLocationModel loc labels = none ↔
        (verifyBlinkitLabel loc (labels 1) = false ∧
          verifyBlinkitLabel loc (labels 2) = false))
      ∧ (∀ lbl : String,
          verifyBlinkitLabel loc lbl = true ↔
            (lbl ≠ "" ∧ lbl ≠ "400" ∧
              (isSixDigitPincode loc = true → strIncludes lbl loc = true)))
      ∧ (verifyBlinkitLabel loc (labels 1) = false →
          verifyBlinkitLabel loc (labels 2) = true →
          setBlinkitLocationModel loc labels = some (labels 2)) := by
  intro loc labels
  refine ⟨?_, ?_, ?_⟩
  · unfold setBlinkitLocationModel
    split_ifs with h1 h2 <;> simp_all
  · intro lbl
    unfold verifyBlinkitLabel
    constructor
    · intro h
      rw [Bool.and_eq_true, Bool.and_eq_true] at h
      obtain ⟨⟨ha, hb⟩, hc⟩ := h
      refine ⟨by simpa using ha, by simpa using hb, ?_⟩
      intro hp
      rcases Bool.or_eq_true_iff.mp hc with hneg | hinc
      · rw [Bool.not_eq_true'] at hneg
        rw [hp] at hneg
        exact absurd hneg (by simp)
      · exact hinc
    · rintro ⟨ha, hb, hc⟩
      rw [Bool.and_eq_true, Bool.and_eq_true]
      refine ⟨⟨by simpa using ha, by simpa using hb⟩, ?_⟩
      by_cases hp : isSixDigitPincode loc = true
      · exact Bool.or_eq_true_iff.mpr (Or.inr (hc hp))
      · refine Bool.or_eq_true_iff.mpr (Or.inl ?_)
        rw [Bool.not_eq_true']
        cases hB : isSixDigitPincode loc with
        | false => rfl
        | true => exact absurd hB hp
  · intro h1 h2
    unfold setBlinkitLocationModel
    rw [if_neg (by simp [h1]), if_pos h2]

/-- Witness for C4: for the pincode 575006 an attempt-1 label without the
pincode fails verification and an attempt-2 label containing it is
returned. -/
theorem c4_location_setter_witness :
    setBlinkitLocationModel "575006"
      (fun i => if i = 1 then "Bejai, Mangaluru" else "Mangaluru 575006") =
      some "Mangaluru 575006" :=
  (c4_location_setter "575006"
    (fun i => if i = 1 then "Bejai, Mangaluru" else "Mangaluru 575006")).2.2
    (by decide) (by decide)

/-- Claim C2: a snippet whose widget-type string contains "ad" or
"sponsor" is detected as sponsored regardless of its other fields;
detection also triggers on an explicit boolean true under the fixed flag
keys, on a whole-word ad/sponsor match in the fixed badge/label text
fields or any badge-list entry, and on the depth-bounded recursive scan
(at most 4 levels deep) finding an ad/sponsor-named key with a
truthy-typed value; keys containing address, badge or label are excluded
from the generic scan unless their own string value matches the loose ad
pattern; and a product named "Washed Carrots" is never matched by the
ad-word scan. -/
theorem c2_sponsorship_detection :
    (∀ (snip : JValue) (wt : String),
        getField snip "widget_type" = some (JValue.str wt) →
        (strIncludes (lowerStr wt) "ad" || strIncludes (lowerStr wt) "sponsor") = true →
        isSponsoredSnippet snip = true)
    ∧ (∀ (snip : JValue) (k : String),
        k ∈ sponsorFlagKeys →
        getField (rawOf snip) k = some (JValue.bool true) →
        isSponsoredSnippet snip = true)
    ∧ (∀ (snip : JValue) (t : JValue),
        t ∈ sponsorTextFields (rawOf snip) →
        testWholeWords adBadgeWords (jvToString t) = true →
        isSponsoredSnippet snip = true)
    ∧ (∀ (snip : JValue) (t : JValue),
        t ∈ badgeTexts (rawOf snip) →
        testWholeWords adBadgeWords (jvToString t) = true →
        isSponsoredSnippet snip = true)
    ∧ (∀ (v : JValue) (d : ℕ), 4 < d → hasAdSignal v d = false)
    ∧ (∀ f : ℕ, hasAdSignalF f (JValue.str "Washed Carrots") = false)
    ∧ hasAdSignalF 5
        (JValue.obj [("badge_info", JValue.obj [("is_ad", JValue.bool true)])]) = false
    ∧ hasAdSignalF 5 (JValue.obj [("badge_info", JValue.str "Sponsored pick")]) = true
    ∧ hasAdSignalF 5
        (JValue.obj [("item",
          JValue.obj [("meta", JValue.obj [("is_ad", JValue.bool true)])])]) = true
    ∧ isSponsoredSnippet
        (JValue.obj [("widget_type", JValue.str "product"),
          ("data", JValue.obj
            [("name", JValue.obj [("text", JValue.str "Washed Carrots")]),
             ("identity", JValue.obj [("id", JValue.str "p1")])])]) = false := by
  refine ⟨?_, ?_, ?_, ?_, ?_, ?_, rfl, rfl, rfl, rfl⟩
  · intro snip wt h1 h2
    by_cases hw : wt = ""
    · subst hw
      exact absurd h2 (by decide)
    · have hwts : widgetTypeString snip = lowerStr wt := by
        unfold widgetTypeString
        rw [h1]
        simp [jvTruthy, jvToString, hw]
      simp only [isSponsoredSnippet]
      rw [hwts, h2]
      simp
  · intro snip k hk hval
    have hany : sponsorFlagKeys.any (fun k2 => flagIsTrue (rawOf snip) k2) = true :=
      List.any_eq_true.mpr ⟨k, hk, by unfold flagIsTrue; rw [hval]⟩
    simp only [isSponsoredSnippet]
    rw [hany]
    simp
  · intro snip t ht htest
    have hany : (sponsorTextFields (rawOf snip)).any
        (fun u => testWholeWords adBadgeWords (jvToString u)) = true :=
      List.any_eq_true.mpr ⟨t, ht, htest⟩
    simp only [isSponsoredSnippet]
    rw [hany]
    simp
  · intro snip t ht htest
    have hany : (badgeTexts (rawOf snip)).any
        (fun u => testWholeWords adBadgeWords (jvToString u)) = true :=
      List.any_eq_true.mpr ⟨t, ht, htest⟩
    simp only [isSponsoredSnippet]
    rw [hany]
    simp
  · intro v d hd
    unfold hasAdSignal
    have h0 : 5 - d = 0 := by omega
    rw [h0]
    rfl
  · intro f
    cases f with
    | zero => rfl
    | succ f => rfl

/-- Witness for C2: the widget type "ad_banner" contains "ad", so a
snippet carrying it is sponsored whatever else it holds. -/
theorem c2_sponsorship_detection_witness :
    isSponsoredSnippet (JValue.obj [("widget_type", JValue.str "ad_banner")]) = true :=
  c2_sponsorship_detection.1 (JValue.obj [("widget_type", JValue.str "ad_banner")])
    "ad_banner" rfl (by decide)

/-- Unfolding lemma for one step of the snippet fold. -/
theorem extractAuxE_cons (i : ℕ) (s : JValue) (rest : List JValue) :
    extractAuxE i (s :: rest) =
      if isSponsoredSnippet s then extractAuxE (i + 1) rest
      else
        match snippetNotProductE s with
        | .error e => .error e
        | .ok true => extractAuxE (i + 1) rest
        | .ok false =>
          match processSnippet i s with
          | .ok p => Except.map (fun ps => p :: ps) (extractAuxE (i + 1) rest)
          | .error _ => extractAuxE (i + 1) rest := rfl

/-- Counterexample to C5 as stated: in a valid payload containing a good
snippet followed by a null snippets entry, the error thrown while handling
the null entry (the non-product guard dereferences `snip.data` outside the
per-snippet try/catch) aborts the whole extraction instead of skipping
only that entry — although the good snippet alone extracts fine. -/
theorem c5_extraction_counterexample :
    extractProductInformation
      (JValue.obj [("response", JValue.obj
        [("snippets", JValue.arr [exampleGoodSnippet, JValue.null])])]) =
      Except.error ()
    ∧ (extractAuxE 0 [exampleGoodSnippet]).isOk = true :=
  ⟨rfl, rfl⟩

/-- Claim C5 (amended: only errors thrown inside the per-snippet try block
are contained; the non-product guard runs outside it and a null snippets
entry makes the guard throw, aborting the whole extraction): extraction
operates only on the JSON-snippet shape — every payload without a
`response.snippets` array, in particular the timeout fallback marker,
yields an empty product list — a null snippets entry aborts extraction
with an error, and an error thrown inside the try block while processing
one snippet skips only that snippet while extraction continues over the
remaining snippets. -/
theorem c5_extraction_robustness :
    (∀ payload : JValue,
        getSnippets payload = none → extractProductInformation payload = Except.ok [])
    ∧ getSnippets fallbackMarker = none
    ∧ extractProductInformation fallbackMarker = Except.ok []
    ∧ (∀ (i : ℕ) (post : List JValue),
        extractAuxE i (JValue.null :: post) = Except.error ())
    ∧ (∀ (i : ℕ) (pre post : List JValue) (bad : JValue),
        isSponsoredSnippet bad = false →
        snippetNotProductE bad = Except.ok false →
        (∀ j, processSnippet j bad = Except.error ()) →
        extractAuxE i (pre ++ bad :: post) =
          Except.bind (extractAuxE i pre)
            (fun ps => Except.map (fun qs => ps ++ qs)
              (extractAuxE (i + pre.length + 1) post))) := by
  refine ⟨?_, rfl, rfl, ?_, ?_⟩
  · intro payload h
    unfold extractProductInformation
    rw [h]
  · intro i post
    rfl
  · intro i pre post bad hs hn he
    induction pre generalizing i with
    | nil =>
      rw [List.nil_append, extractAuxE_cons, hs, hn, he i]
      cases hres : extractAuxE (i + 1) post <;>
        simp [Except.bind, Except.map, extractAuxE, hres]
    | cons s pre ih =>
      have harith : i + (s :: pre).length + 1 = i + 1 + pre.length + 1 := by
        simp only [List.length_cons]
        omega
      rw [List.cons_append, extractAuxE_cons i s (pre ++ bad :: post),
        extractAuxE_cons i s pre, harith]
      by_cases h1 : isSponsoredSnippet s = true
      · rw [if_pos h1, if_pos h1]
        exact ih (i + 1)
      · rw [if_neg h1, if_neg h1]
        cases hg : snippetNotProductE s with
        | error e => simp [Except.bind]
        | ok b =>
          cases b with
          | true => exact ih (i + 1)
          | false =>
            cases hp : processSnippet i s with
            | error e2 => exact ih (i + 1)
            | ok p =>
              show Except.map (fun ps => p :: ps)
                  (extractAuxE (i + 1) (pre ++ bad :: post)) = _
              rw [ih (i + 1)]
              cases ha : extractAuxE (i + 1) pre <;>
                cases hb : extractAuxE (i + 1 + pre.length + 1) post <;>
                  simp [Except.bind, Except.map, ha, hb]

/-- Witness for C5: a snippet whose original-price text is a number makes
`origPrice.match` throw inside the try block; between two good snippets
only it is skipped, and the indices of the suffix advance past it. -/
theorem c5_extraction_robustness_witness :
    isSponsoredSnippet exampleErrorSnippet = false ∧
    snippetNotProductE exampleErrorSnippet = Except.ok false ∧
    extractAuxE 0 ([exampleGoodSnippet] ++ exampleErrorSnippet :: [exampleGoodSnippet]) =
      Except.bind (extractAuxE 0 [exampleGoodSnippet])
        (fun ps => Except.map (fun qs => ps ++ qs) (extractAuxE 2 [exampleGoodSnippet])) :=
  ⟨rfl, rfl,
    c5_extraction_robustness.2.2.2.2 0 [exampleGoodSnippet] [exampleGoodSnippet]
      exampleErrorSnippet rfl rfl (fun _ => rfl)⟩

/-- Claim C10: the extracted `available` flag defaults to true; it is
computed from `is_sold_out` (negated truthiness) when that key is present,
else from `inventory > 0` when that key is present, else it is true, so
`is_sold_out` takes precedence and a snippet with neither key is
available. -/
theorem c10_available_flag :
    (∀ (i : ℕ) (snip : JValue) (p : Product),
        processSnippet i snip = Except.ok p → p.available = availOf (dataOf snip))
    ∧ (∀ raw : JValue, getField raw "is_sold_out" = none →
        getField raw "inventory" = none → availOf raw = true)
    ∧ (∀ raw v : JValue, getField raw "is_sold_out" = some v →
        availOf raw = !jvTruthy v)
    ∧ (∀ raw v : JValue, getField raw "is_sold_out" = none →
        getField raw "inventory" = some v → availOf raw = jvGtZero v) := by
  refine ⟨?_, ?_, ?_, ?_⟩
  · intro i snip p h
    simp only [processSnippet] at h
    split at h
    · simp at h
    · split at h
      · simp at h
      · injection h with h'
        rw [← h']
  · intro raw h1 h2
    unfold availOf
    rw [h1, h2]
  · intro raw v h
    unfold availOf
    rw [h]
  · intro raw v h1 h2
    unfold availOf
    rw [h1, h2]

/-- Witness for C10: a snippet data object carrying neither `is_sold_out`
nor `inventory` is available. -/
theorem c10_available_flag_witness :
    availOf (JValue.obj [("name", JValue.str "x")]) = true :=
  c10_available_flag.2.1 (JValue.obj [("name", JValue.str "x")]) rfl rfl

end QuickScraper

